import Mathlib

/-!
Verification development for the `gocv-stream-events` detection pipeline.

The Go source is shallowly embedded here:

* `detectedObject`, `bbIntersectionOverUnion` (main.go:320-342), the fusion
  loop of `performDetection` (main.go:349-412) and
  `getClassIDAndConfidence` (main.go:415-425) become pure Lean functions.
  Go `float32`/`float64` arithmetic on the small box/score values involved
  is modelled with exact rationals (`ℚ`); note that in the one place the Go
  code can divide zero by zero (degenerate boxes), the comparison
  `intersection > 0.7` is `false` both for the NaN of Go and for the
  `0 / 0 = 0`, so the fusion logic is observationally faithful.
* `getDeviceType` (types.go:20-29) and the per-device dispatch of `main`
  (main.go:149-158) are embedded over Lean `String`s.
* The capture loop of `detectFromCapture` (main.go:231-308) is embedded as
  a per-iteration outcome function `loopBody` over the branch-relevant
  observations of one iteration (read result, frame emptiness, detections,
  database results, pressed key).
* The stream-connection `select` of `detectFromCapture` (main.go:184-213)
  is embedded with discretized time: a connection attempt either succeeds
  within the 5 second bound, fails within it, or hangs past it.
* `hasBeenAlerted` (database code, lines 103-150) is embedded as a pure
  throttle decision over an explicit database state; wall-clock timestamps
  become integer seconds, `time.Time.After` becomes strict `<` on them, and
  `AddDate(0, 0, -n)` becomes subtraction of `n * 86400` seconds.
-/

/-- Embeds `detectedObject` (types.go:14-18): confidence plus a pixel box
and a human readable label. -/
structure detectedObject where
  confidence : ℚ
  top : Int
  left : Int
  width : Int
  height : Int
  label : String
deriving DecidableEq, Repr

/-- Embeds `bbIntersectionOverUnion` (main.go:320-342): intersection over
union with the inclusive `+1` pixel convention, overlap terms clamped by
`max 0`.  The Go code first builds `boxA = [left, top, left+width,
top+height]` (and likewise `boxB`) and then indexes those slices; the four
components are inlined here.  Go computes
`interArea / (boxAArea + boxBArea - interArea)` in `float64`; here the
quotient is taken in `ℚ` (with `q / 0 = 0`). -/
def bbIntersectionOverUnion (a b : detectedObject) : ℚ :=
  let xA := max (a.left : ℚ) (b.left : ℚ)
  let yA := max (a.top : ℚ) (b.top : ℚ)
  let xB := min ((a.left : ℚ) + a.width) ((b.left : ℚ) + b.width)
  let yB := min ((a.top : ℚ) + a.height) ((b.top : ℚ) + b.height)
  let interArea := max 0 (xB - xA + 1) * max 0 (yB - yA + 1)
  let boxAArea := (((a.left : ℚ) + a.width) - a.left + 1) * (((a.top : ℚ) + a.height) - a.top + 1)
  let boxBArea := (((b.left : ℚ) + b.width) - b.left + 1) * (((b.top : ℚ) + b.height) - b.top + 1)
  interArea / (boxAArea + boxBArea - interArea)

/-- The intersection area `interArea` computed by
`bbIntersectionOverUnion` (main.go:331), kept separately so that
division-by-zero questions can be stated. -/
def iouInter (a b : detectedObject) : ℚ :=
  let xA := max (a.left : ℚ) (b.left : ℚ)
  let yA := max (a.top : ℚ) (b.top : ℚ)
  let xB := min ((a.left : ℚ) + a.width) ((b.left : ℚ) + b.width)
  let yB := min ((a.top : ℚ) + a.height) ((b.top : ℚ) + b.height)
  max 0 (xB - xA + 1) * max 0 (yB - yA + 1)

/-- The denominator `boxAArea + boxBArea - interArea` of
`bbIntersectionOverUnion` (main.go:338), kept separately so that
division-by-zero questions can be stated. -/
def iouDenom (a b : detectedObject) : ℚ :=
  let xA := max (a.left : ℚ) (b.left : ℚ)
  let yA := max (a.top : ℚ) (b.top : ℚ)
  let xB := min ((a.left : ℚ) + a.width) ((b.left : ℚ) + b.width)
  let yB := min ((a.top : ℚ) + a.height) ((b.top : ℚ) + b.height)
  let interArea := max 0 (xB - xA + 1) * max 0 (yB - yA + 1)
  let boxAArea := (((a.left : ℚ) + a.width) - a.left + 1) * (((a.top : ℚ) + a.height) - a.top + 1)
  let boxBArea := (((b.left : ℚ) + b.width) - b.left + 1) * (((b.top : ℚ) + b.height) - b.top + 1)
  boxAArea + boxBArea - interArea

/-- Embeds one pass of the duplicate-merging loop of `performDetection`
(main.go:386-406) for a single threshold-passing candidate `c` against the
accumulated list `acc`: every accumulated entry that `c` overlaps above
`0.7` and strictly beats in confidence is overwritten with `c`
(`detectedObjects[i] = currentlyDetectedObject`), and `c` is appended
exactly when it overlaps no accumulated entry above `0.7` (`newObject`).
The `len(detectedObjects) == 0` branch (main.go:386-390) appends
unconditionally. -/
def fuseStep (acc : List detectedObject) (c : detectedObject) : List detectedObject :=
  if acc = [] then acc ++ [c]
  else
    let replaced := acc.map fun o =>
      if 7/10 < bbIntersectionOverUnion c o ∧ o.confidence < c.confidence then c else o
    if acc.all fun o => ¬ 7/10 < bbIntersectionOverUnion c o then
      replaced ++ [c]
    else
      replaced

/-- The fusion pass of `performDetection` (main.go:349-412) over candidates
that already passed the confidence threshold, in arrival order. -/
def fuse (cands : List detectedObject) : List detectedObject :=
  cands.foldl fuseStep []

/-- The candidate-level loop of `performDetection` (main.go:366-408): each
candidate is fused only when its confidence strictly exceeds the threshold
(`confidence > confidenceTreshold`, main.go:371). -/
def performDetectionCandidates (thr : ℚ) (cands : List detectedObject) :
    List detectedObject :=
  cands.foldl (fun acc c => if thr < c.confidence then fuseStep acc c else acc) []

/-- The scan of `getClassIDAndConfidence` (main.go:415-425): state is the
current best index `res` and running maximum `m` (Go starts from
`res = 0`, `max = 0.0`), updated on strict `y > max`; `i` is the index of
the head of the remaining list. -/
def getClassGo : List ℚ → Nat → Nat → ℚ → Nat × ℚ
  | [], _, res, m => (res, m)
  | y :: ys, i, res, m =>
    if m < y then getClassGo ys (i + 1) i y else getClassGo ys (i + 1) res m

/-- Embeds `getClassIDAndConfidence` (main.go:415-425). -/
def getClassIDAndConfidence (x : List ℚ) : Nat × ℚ :=
  getClassGo x 0 0 0

/-- Device-source codes (types.go:8-12); the Go `deviceSource` is an `int`
and `getDeviceType` can return `-1`, so the embedding keeps `Int`. -/
def IMAGE : Int := 0

/-- `VIDEO` constant of types.go:10. -/
def VIDEO : Int := 1

/-- `STREAM` constant of types.go:11. -/
def STREAM : Int := 2

/-- The Go `strings.HasSuffix`, modelled on the character list of the
string. -/
def strHasSuffix (s t : String) : Bool :=
  t.data.isSuffixOf s.data

/-- The Go standard-library test for a leading literal (used by
`getDeviceType` for "rtsp"), modelled on the character list of the
string. -/
def strHasPre (s t : String) : Bool :=
  t.data.isPrefixOf s.data

/-- Embeds `getDeviceType` (types.go:20-29). -/
def getDeviceType (deviceID : String) : Int :=
  if strHasSuffix deviceID ".jpg" || strHasSuffix deviceID ".png" then IMAGE
  else if strHasSuffix deviceID ".mp4" || deviceID.data == "0".data then VIDEO
  else if strHasPre deviceID "rtsp" then STREAM
  else -1

/-- Embeds the per-device dispatch of `main` (main.go:149-158): a device
whose source type is negative is logged and skipped (`continue`), any
other device gets a `detectFromCapture` goroutine for its source type.
`some t` stands for the launched pipeline with source type `t`. -/
def mainDeviceDispatch (deviceID : String) : Option Int :=
  if getDeviceType deviceID < 0 then none else some (getDeviceType deviceID)

/-- Embeds `fmt.Sscanf(alertInterval, "%d%s", &intervalLength,
&intervalType)` of `hasBeenAlerted` (database code, line 112) for interval
specs of the form digit-run followed by a unit suffix: the leading digits
become the magnitude, the rest the unit code. -/
def parseInterval (s : String) : Int × String :=
  let ds := s.data.takeWhile Char.isDigit
  (ds.foldl (fun n c => 10 * n + ((c.toNat : Int) - 48)) 0,
    String.mk (s.data.dropWhile Char.isDigit))

/-- Embeds the throttle decision of `hasBeenAlerted` (database code, lines
120-148).  Timestamps are integer seconds; `time.Time.After cutoff` is
strict `cutoff < last`; `Add(-(time.Minute * n))` and `Add(-(time.Hour *
n))` subtract `60 * n` and `3600 * n` seconds, and `AddDate(0, 0, -n)`
subtracts `n * 86400` seconds.  First component of the result: the
returned `bool` (`true` = already alerted, suppress).  Second component:
the alert row inserted for this decision (`INSERT INTO alert`, line 144),
when one is inserted. -/
def throttleDecision (lastCapture : Option Int) (intervalLength : Int)
    (intervalType : String) (now : Int) : Bool × Option Int :=
  match lastCapture with
  | none => (false, some now)
  | some last =>
    if intervalType = "m" then
      if now - 60 * intervalLength < last then (true, none) else (false, some now)
    else if intervalType = "h" then
      if now - 3600 * intervalLength < last then (true, none) else (false, some now)
    else if intervalType = "d" then
      if now - 86400 * intervalLength < last then (true, none) else (false, some now)
    else (true, none)

/-- A row of the `observer` table (init.sql): id and email. -/
structure Observer where
  id : Int
  email : String
deriving DecidableEq, Repr

/-- A row of the `subscription` table (init.sql): id, observer, stream,
the `alert` flag and the `alert_interval` spec. -/
structure Subscription where
  id : Int
  observerId : Int
  streamId : Int
  alert : Bool
  alertInterval : String
deriving DecidableEq, Repr

/-- A row of the `alert` table (init.sql): subscription and creation
timestamp (integer seconds). -/
structure AlertRow where
  subscriptionId : Int
  created : Int
deriving DecidableEq, Repr

/-- A row of the `stream` table (init.sql): id and address. -/
structure StreamRow where
  id : Int
  address : String
deriving DecidableEq, Repr

/-- The database state visible to `hasBeenAlerted` and `notifyObservers`.
Lists stand for tables; list order stands for the (unspecified) order in
which the database returns rows to an unordered query, so `List.find?`
models `QueryRow` picking the first returned row. -/
structure DBState where
  observers : List Observer
  streams : List StreamRow
  subscriptions : List Subscription
  alerts : List AlertRow
deriving DecidableEq, Repr

/-- The subscription row read by `hasBeenAlerted` (database code, line
108): `SELECT id, alert_interval FROM subscription WHERE
observer_id=(SELECT id from observer WHERE email=$1)` — filtered by the
observer email only, with no stream condition, so for an observer with
several subscriptions `QueryRow` yields whichever row the database returns
first. -/
def lookupSubscription (db : DBState) (email : String) : Option Subscription :=
  match db.observers.find? fun o => o.email == email with
  | none => none
  | some o => db.subscriptions.find? fun s => s.observerId == o.id

/-- The latest alert timestamp for a subscription (database code, line
118): `SELECT created FROM alert WHERE subscription_id=$1 ORDER BY created
DESC` scanned into the first row. -/
def lastAlert (db : DBState) (subId : Int) : Option Int :=
  ((db.alerts.filter fun a => a.subscriptionId == subId).map fun a => a.created).foldl
    (fun acc c => match acc with | none => some c | some m => some (max m c)) none

/-- Embeds `hasBeenAlerted` (database code, lines 103-150) over a database
state: look up the subscription of the observer (by email only), parse its
interval, take the latest recorded alert, decide, and insert a new alert
row when the throttle is open.  `none` models the `log.Fatal` exit taken
when the subscription query fails. -/
def hasBeenAlerted (db : DBState) (email : String) (now : Int) :
    Option (Bool × DBState) :=
  match lookupSubscription db email with
  | none => none
  | some sub =>
    let p := parseInterval sub.alertInterval
    match throttleDecision (lastAlert db sub.id) p.1 p.2 now with
    | (suppress, none) => some (suppress, db)
    | (suppress, some t) =>
      some (suppress, ⟨db.observers, db.streams, db.subscriptions,
        db.alerts ++ [⟨sub.id, t⟩]⟩)

/-- The observers `notifyObservers` iterates over (database code, line
153): `SELECT email FROM observer WHERE id IN (SELECT observer_id FROM
subscription WHERE stream_id=(SELECT id FROM stream WHERE address=$1) AND
alert=TRUE)`. -/
def notifyObserverEmails (db : DBState) (address : String) : List String :=
  match db.streams.find? fun st => st.address == address with
  | none => []
  | some st =>
    ((db.observers.filter fun o =>
        db.subscriptions.any fun sub =>
          sub.streamId == st.id && sub.observerId == o.id && sub.alert).map
      fun o => o.email)

/-- Embeds the loop of `notifyObservers` (database code, lines 152-179):
for each subscribed observer, gate the notification on `hasBeenAlerted`;
an email is sent exactly when the throttle is open.  Returns the notified
emails and the final database state; `none` models a `log.Fatal` exit. -/
def notifyObservers (db : DBState) (address : String) (now : Int) :
    Option (List String × DBState) :=
  (notifyObserverEmails db address).foldl
    (fun acc email =>
      match acc with
      | none => none
      | some (sent, st) =>
        match hasBeenAlerted st email now with
        | none => none
        | some (true, st2) => some (sent, st2)
        | some (false, st2) => some (sent ++ [email], st2))
    (some ([], db))

/-- Operating mode of the capture loop: `RUN_ENV == "prod"` or the
interactive test mode (main.go:275, main.go:293). -/
inductive RunEnv where
  | prod
  | test
deriving DecidableEq, Repr

/-- How one iteration of the `detectFromCapture` loop (main.go:231-308)
ends.  `deviceClosed` is the `return` after `webcam.Read` fails
(main.go:242-246); `fatalEmptyFrame` is the `log.Fatal` on an empty frame
(main.go:249), which exits the whole process — the `continue` after it is
unreachable; `fatalDb` is a `log.Fatal` on a database error (main.go:284,
main.go:288); `userCancel` is the `break` on `window.WaitKey(1) >= 0`
(main.go:298-301); `nextIteration` means the loop runs again. -/
inductive LoopOutcome where
  | deviceClosed
  | fatalEmptyFrame
  | fatalDb
  | userCancel
  | nextIteration
deriving DecidableEq, Repr

/-- The branch-relevant observations of one iteration of the capture loop:
the `webcam.Read` result, whether the frame is empty, the fused detections
of the frame, whether the `getClassId` and `insertDetections` calls
succeed, and the `window.WaitKey(1)` result. -/
structure IterObs where
  readOk : Bool
  imgEmpty : Bool
  detections : List detectedObject
  classIdOk : Bool
  insertOk : Bool
  waitKey : Int
deriving DecidableEq, Repr

/-- The part of the loop body after a frame is available (main.go:254-307):
in production mode an empty detection list just continues, otherwise the
event is persisted (database failures are fatal) and observers notified;
in test mode the window is drawn and a pressed key breaks the loop. -/
def loopBodyDetect (env : RunEnv) (it : IterObs) : LoopOutcome :=
  match env with
  | .prod =>
    if it.detections.isEmpty then .nextIteration
    else if it.classIdOk = false then .fatalDb
    else if it.insertOk = false then .fatalDb
    else .nextIteration
  | .test => if 0 ≤ it.waitKey then .userCancel else .nextIteration

/-- Embeds one iteration of the `detectFromCapture` loop (main.go:231-308)
for source type `sourceType`: only `STREAM` and `VIDEO` sources read from
the capture device (main.go:233-252); an `IMAGE` source goes straight to
detection on the cached frame. -/
def loopBody (sourceType : Int) (env : RunEnv) (it : IterObs) : LoopOutcome :=
  if sourceType = STREAM ∨ sourceType = VIDEO then
    if it.readOk = false then .deviceClosed
    else if it.imgEmpty then .fatalEmptyFrame
    else loopBodyDetect env it
  else loopBodyDetect env it

/-- Runs the capture loop over a list of per-iteration observations:
`none` means the loop is still running after consuming them all, `some o`
means it stopped with outcome `o`. -/
def runIterations (sourceType : Int) (env : RunEnv) :
    List IterObs → Option LoopOutcome
  | [] => none
  | it :: rest =>
    match loopBody sourceType env it with
    | .nextIteration => runIterations sourceType env rest
    | o => some o

/-- Discretized fate of a stream connection attempt against the 5 second
bound of `detectFromCapture` (main.go:188): it either succeeds within the
bound, fails (refused) within the bound, or hangs past the bound. -/
inductive ConnectAttempt where
  | succeedsInTime
  | failsInTime
  | hangs
deriving DecidableEq, Repr

/-- What the `select` of `detectFromCapture` (main.go:203-210) resolves
to for the caller: the `webcam = <-c1` branch or the `ctxTimeout.Done()`
branch. -/
inductive ConnectOutcome where
  | connected
  | timedOut
deriving DecidableEq, Repr

/-- The observable result of the stream-connection phase of
`detectFromCapture` (main.go:184-213): the branch that the `select` of the caller
takes, whether the connect goroutine printed its own failure message
(main.go:196), and how many times `wg.Done()` ran during this phase
(main.go:197 in the goroutine, main.go:207 in the timeout branch). -/
structure StreamConnectResult where
  caller : ConnectOutcome
  goroutineLoggedFailure : Bool
  wgDoneCount : Nat
deriving DecidableEq, Repr

/-- Embeds the stream-connection `select` (main.go:184-213) over the
discretized attempt fate.  On a failed attempt the goroutine returns
without sending on `c1` (main.go:195-199), so the `select` of the caller can
only ever fire on the context timeout; both the goroutine and the timeout
branch then call `wg.Done()`. -/
def streamConnect : ConnectAttempt → StreamConnectResult
  | .succeedsInTime => ⟨.connected, false, 0⟩
  | .failsInTime => ⟨.timedOut, true, 2⟩
  | .hangs => ⟨.timedOut, false, 1⟩

/-- Candidate with box (left 0, top 0, width 10, height 10) and confidence
0.8: the first candidate of the two-candidate fusion example of the spec. -/
def candLow : detectedObject := ⟨4/5, 0, 0, 10, 10, "osprey - 80%"⟩

/-- Candidate with the same box as `candLow` and confidence 0.95: the
second candidate of the two-candidate fusion example of the spec. -/
def candHigh : detectedObject := ⟨19/20, 0, 0, 10, 10, "osprey - 95%"⟩

/-- Candidate with box shifted to left 2, confidence 0.8; overlaps
`candLow` with ratio 99/143 (below 0.7) and `candBetween` with 5/6. -/
def candMid : detectedObject := ⟨4/5, 0, 2, 10, 10, "osprey - 80%"⟩

/-- Candidate with box at left 1 (between `candLow` and `candMid`) and
confidence 0.95; overlaps both with ratio 5/6 (above 0.7). -/
def candBetween : detectedObject := ⟨19/20, 0, 1, 10, 10, "osprey - 95%"⟩

/-- A degenerate box: zero width and zero height (a single pixel in the
inclusive convention of the code, zero-area in conventional geometry). -/
def pointBox : detectedObject := ⟨1, 0, 0, 0, 0, "point"⟩

/-- Iteration observations for a successful read that yields an empty
frame mid-stream. -/
def emptyFrameIter : IterObs := ⟨true, true, [], true, true, -1⟩

/-- Iteration observations for a normal frame with one detection and
succeeding database calls, no key pressed. -/
def okIter : IterObs := ⟨true, false, [candLow], true, true, -1⟩

/-- Observer 1 of the cross-stream throttle scenario. -/
def obsOne : Observer := ⟨1, "observer@mail"⟩

/-- Stream A of the cross-stream throttle scenario. -/
def streamRowA : StreamRow := ⟨10, "rtsp://a"⟩

/-- Stream B of the cross-stream throttle scenario. -/
def streamRowB : StreamRow := ⟨20, "rtsp://b"⟩

/-- Subscription of observer 1 to stream B (returned first by the
unordered subscription query). -/
def subToB : Subscription := ⟨200, 1, 20, true, "15m"⟩

/-- Subscription of observer 1 to stream A. -/
def subToA : Subscription := ⟨100, 1, 10, true, "15m"⟩

/-- Database state in which observer 1 was alerted on stream A at time
1000 and never on stream B. -/
def dbOne : DBState := ⟨[obsOne], [streamRowA, streamRowB], [subToB, subToA], [⟨100, 1000⟩]⟩

/-- Database state identical to `dbOne` except that observer 1 was also
alerted on stream B at time 1000: only the throttle state of the same
observer subscription to the other stream differs. -/
def dbTwo : DBState :=
  ⟨[obsOne], [streamRowA, streamRowB], [subToB, subToA], [⟨100, 1000⟩, ⟨200, 1000⟩]⟩

lemma fuseStep_all_false (acc : List detectedObject) (c : detectedObject)
    (o : detectedObject) (ho : o ∈ acc) (hov : 7/10 < bbIntersectionOverUnion c o) :
    (acc.all fun o => ¬ 7/10 < bbIntersectionOverUnion c o) = false := by
  rcases hb : acc.all fun o => ¬ 7/10 < bbIntersectionOverUnion c o with _ | _
  · rfl
  · exact absurd hov (by simpa using (List.all_eq_true.mp hb o ho))

lemma fuseStep_overlap_spec (acc : List detectedObject) (c : detectedObject)
    (h : ∃ o ∈ acc, 7/10 < bbIntersectionOverUnion c o) :
    fuseStep acc c = acc.map fun o =>
      if 7/10 < bbIntersectionOverUnion c o ∧ o.confidence < c.confidence then c else o := by
  obtain ⟨o, ho, hov⟩ := h
  have hne : acc ≠ [] := by rintro rfl; exact absurd ho (List.not_mem_nil o)
  have hall := fuseStep_all_false acc c o ho hov
  simp only [fuseStep]
  rw [if_neg hne, if_neg (by rw [hall]; exact Bool.false_ne_true)]

lemma fuseStep_no_overlap (acc : List detectedObject) (c : detectedObject)
    (h : ∀ o ∈ acc, ¬ 7/10 < bbIntersectionOverUnion c o) :
    fuseStep acc c = acc ++ [c] := by
  rcases hne : acc with _ | ⟨a, rest⟩
  · simp [fuseStep]
  · rw [← hne]
    have hne2 : acc ≠ [] := by rw [hne]; simp
    have hall : (acc.all fun o => ¬ 7/10 < bbIntersectionOverUnion c o) = true := by
      rw [List.all_eq_true]; intro o ho; simpa using h o ho
    have hmap : (acc.map fun o =>
        if 7/10 < bbIntersectionOverUnion c o ∧ o.confidence < c.confidence then c else o) = acc := by
      have h2 : (acc.map fun o =>
          if 7/10 < bbIntersectionOverUnion c o ∧ o.confidence < c.confidence then c else o) =
          acc.map id :=
        List.map_congr_left fun o ho => if_neg fun hc => h o ho hc.1
      rw [h2, List.map_id]
    simp only [fuseStep]
    rw [if_neg hne2, if_pos hall, hmap]

lemma fuse_go_pairwise (L : List detectedObject) : ∀ acc : List detectedObject,
    (∀ c ∈ L, ∀ o ∈ acc, ¬ 7/10 < bbIntersectionOverUnion c o) →
    List.Pairwise (fun o c => ¬ 7/10 < bbIntersectionOverUnion c o) L →
    L.foldl fuseStep acc = acc ++ L := by
  induction L with
  | nil => intro acc _ _; simp
  | cons c rest ih =>
    intro acc hcross hpw
    simp only [List.foldl_cons]
    rw [fuseStep_no_overlap acc c fun o ho => hcross c (List.mem_cons_self c rest) o ho]
    rw [ih (acc ++ [c]) ?_ (List.Pairwise.of_cons hpw)]
    · simp
    · intro c2 hc2 o ho
      rcases List.mem_append.mp ho with h | h
      · exact hcross c2 (List.mem_cons_of_mem c hc2) o h
      · have : o = c := by simpa using h
        subst this
        exact (List.pairwise_cons.mp hpw).1 c2 hc2

lemma fuse_pairwise_id (L : List detectedObject)
    (hpw : List.Pairwise (fun o c => ¬ 7/10 < bbIntersectionOverUnion c o) L) :
    fuse L = L := by
  have := fuse_go_pairwise L [] (fun c _ o ho => absurd ho (List.not_mem_nil o)) hpw
  simpa [fuse] using this

lemma le_foldl_max (l : List ℚ) : ∀ b : ℚ, b ≤ l.foldl max b := by
  induction l with
  | nil => intro b; simp
  | cons y ys ih =>
    intro b
    calc b ≤ max b y := le_max_left b y
    _ ≤ (ys.foldl max (max b y)) := ih (max b y)
    _ = ((y :: ys).foldl max b) := by simp

lemma getClassGo_snd (ys : List ℚ) : ∀ (i res : Nat) (m : ℚ),
    (getClassGo ys i res m).2 = ys.foldl max m := by
  induction ys with
  | nil => intro i res m; simp [getClassGo]
  | cons y ys ih =>
    intro i res m
    simp only [getClassGo, List.foldl_cons]
    by_cases h : m < y
    · rw [if_pos h, ih, max_eq_right h.le]
    · rw [if_neg h, ih, max_eq_left (not_lt.mp h)]

lemma getClassGo_stay (ys : List ℚ) : ∀ (i res : Nat) (m : ℚ),
    ys.foldl max m = m → getClassGo ys i res m = (res, m) := by
  induction ys with
  | nil => intro i res m _; simp [getClassGo]
  | cons y ys ih =>
    intro i res m h
    rw [List.foldl_cons] at h
    have h1 : max m y ≤ ys.foldl max (max m y) := le_foldl_max ys (max m y)
    have h2 : max m y = m := le_antisymm (le_trans h1 (le_of_eq h)) (le_max_left m y)
    have h3 : ¬ m < y := by
      intro hy
      rw [max_eq_right hy.le] at h2
      exact absurd h2 (ne_of_gt hy)
    simp only [getClassGo]
    rw [if_neg h3]
    rw [h2] at h
    exact ih (i + 1) res m h

lemma getClassGo_improve (ys : List ℚ) : ∀ (i res : Nat) (m : ℚ),
    m < ys.foldl max m →
    ∃ j, ∃ hj : j < ys.length,
      (getClassGo ys i res m).1 = i + j ∧
      ys.get ⟨j, hj⟩ = (getClassGo ys i res m).2 ∧
      ∀ k, ∀ hk : k < j, ys.get ⟨k, Nat.lt_trans hk hj⟩ < (getClassGo ys i res m).2 := by
  induction ys with
  | nil => intro i res m h; simp at h
  | cons y ys ih =>
    intro i res m h
    by_cases hy : m < y
    · simp only [getClassGo]
      rw [if_pos hy]
      by_cases h2 : y < ys.foldl max y
      · obtain ⟨j, hj, hfst, hget, hpre⟩ := ih (i + 1) i y h2
        refine ⟨j + 1, by simpa using Nat.succ_lt_succ hj, by rw [hfst]; omega,
          by simpa using hget, ?_⟩
        intro k hk
        cases k with
        | zero =>
          have hsnd : (getClassGo ys (i + 1) i y).2 = ys.foldl max y :=
            getClassGo_snd ys (i + 1) i y
          simpa [hsnd] using h2
        | succ k => simpa using hpre k (by omega)
      · have heq : ys.foldl max y = y := le_antisymm (not_lt.mp h2) (le_foldl_max ys y)
        rw [getClassGo_stay ys (i + 1) i y heq]
        refine ⟨0, by simp, by simp, by simp, ?_⟩
        intro k hk
        exact absurd hk (Nat.not_lt_zero k)
    · simp only [getClassGo]
      rw [if_neg hy]
      rw [List.foldl_cons, max_eq_left (not_lt.mp hy)] at h
      obtain ⟨j, hj, hfst, hget, hpre⟩ := ih (i + 1) res m h
      refine ⟨j + 1, by simpa using Nat.succ_lt_succ hj, by rw [hfst]; omega,
        by simpa using hget, ?_⟩
      intro k hk
      cases k with
      | zero =>
        have hsnd : (getClassGo ys (i + 1) res m).2 = ys.foldl max m :=
          getClassGo_snd ys (i + 1) res m
        simp only [List.get]
        rw [hsnd]
        exact lt_of_le_of_lt (not_lt.mp hy) h
      | succ k => simpa using hpre k (by omega)

lemma bbIOU_eq_div (a b : detectedObject) :
    bbIntersectionOverUnion a b = iouInter a b / iouDenom a b := rfl

lemma iouInter_nonneg (a b : detectedObject) : 0 ≤ iouInter a b := by
  simp only [iouInter]
  exact mul_nonneg (le_max_left 0 _) (le_max_left 0 _)

lemma iouDenom_pos_of_inter_pos (a b : detectedObject) (h : 0 < iouInter a b) :
    0 < iouDenom a b := by
  simp only [iouInter, iouDenom] at h ⊢
  set xA := max (a.left : ℚ) (b.left : ℚ) with hxA
  set yA := max (a.top : ℚ) (b.top : ℚ) with hyA
  set xB := min ((a.left : ℚ) + a.width) ((b.left : ℚ) + b.width) with hxB
  set yB := min ((a.top : ℚ) + a.height) ((b.top : ℚ) + b.height) with hyB
  have hM1nn : (0:ℚ) ≤ max 0 (xB - xA + 1) := le_max_left 0 _
  have hM2nn : (0:ℚ) ≤ max 0 (yB - yA + 1) := le_max_left 0 _
  have hM1 : 0 < max 0 (xB - xA + 1) := by
    rcases lt_or_eq_of_le hM1nn with h1 | h1
    · exact h1
    · rw [← h1] at h; simp at h
  have hM2 : 0 < max 0 (yB - yA + 1) := by
    rcases lt_or_eq_of_le hM2nn with h1 | h1
    · exact h1
    · rw [← h1] at h; simp at h
  have hx : 0 < xB - xA + 1 := by
    by_contra hc
    rw [max_eq_left (not_lt.mp hc)] at hM1
    exact absurd hM1 (lt_irrefl 0)
  have hy : 0 < yB - yA + 1 := by
    by_contra hc
    rw [max_eq_left (not_lt.mp hc)] at hM2
    exact absurd hM2 (lt_irrefl 0)
  have hM1v : max 0 (xB - xA + 1) = xB - xA + 1 := max_eq_right hx.le
  have hM2v : max 0 (yB - yA + 1) = yB - yA + 1 := max_eq_right hy.le
  rw [hM1v, hM2v]
  have hxa1 : xB - xA + 1 ≤ ((a.left : ℚ) + a.width) - a.left + 1 := by
    have h1 : xB ≤ (a.left : ℚ) + a.width := min_le_left _ _
    have h2 : (a.left : ℚ) ≤ xA := le_max_left _ _
    linarith
  have hya1 : yB - yA + 1 ≤ ((a.top : ℚ) + a.height) - a.top + 1 := by
    have h1 : yB ≤ (a.top : ℚ) + a.height := min_le_left _ _
    have h2 : (a.top : ℚ) ≤ yA := le_max_left _ _
    linarith
  have hxb1 : xB - xA + 1 ≤ ((b.left : ℚ) + b.width) - b.left + 1 := by
    have h1 : xB ≤ (b.left : ℚ) + b.width := min_le_right _ _
    have h2 : (b.left : ℚ) ≤ xA := le_max_right _ _
    linarith
  have hyb1 : yB - yA + 1 ≤ ((b.top : ℚ) + b.height) - b.top + 1 := by
    have h1 : yB ≤ (b.top : ℚ) + b.height := min_le_right _ _
    have h2 : (b.top : ℚ) ≤ yA := le_max_right _ _
    linarith
  have hprod : (xB - xA + 1) * (yB - yA + 1) ≤
      (((a.left : ℚ) + a.width) - a.left + 1) * (((a.top : ℚ) + a.height) - a.top + 1) :=
    mul_le_mul hxa1 hya1 hy.le (by linarith)
  have hpos : 0 <
      (((b.left : ℚ) + b.width) - b.left + 1) * (((b.top : ℚ) + b.height) - b.top + 1) :=
    mul_pos (lt_of_lt_of_le hx hxb1) (lt_of_lt_of_le hy hyb1)
  linarith

lemma bbIOU_nonneg (a b : detectedObject) : 0 ≤ bbIntersectionOverUnion a b := by
  rw [bbIOU_eq_div]
  rcases eq_or_lt_of_le (iouInter_nonneg a b) with h | h
  · rw [← h, zero_div]
  · exact le_of_lt (div_pos h (iouDenom_pos_of_inter_pos a b h))

lemma iouDenom_pos_of_nonneg_dims (a b : detectedObject) (haw : 0 ≤ a.width)
    (hah : 0 ≤ a.height) (hbw : 0 ≤ b.width) (hbh : 0 ≤ b.height) :
    0 < iouDenom a b := by
  simp only [iouDenom]
  set xA := max (a.left : ℚ) (b.left : ℚ) with hxA
  set yA := max (a.top : ℚ) (b.top : ℚ) with hyA
  set xB := min ((a.left : ℚ) + a.width) ((b.left : ℚ) + b.width) with hxB
  set yB := min ((a.top : ℚ) + a.height) ((b.top : ℚ) + b.height) with hyB
  have haw2 : (0:ℚ) ≤ (a.width : ℚ) := by exact_mod_cast haw
  have hah2 : (0:ℚ) ≤ (a.height : ℚ) := by exact_mod_cast hah
  have hbw2 : (0:ℚ) ≤ (b.width : ℚ) := by exact_mod_cast hbw
  have hbh2 : (0:ℚ) ≤ (b.height : ℚ) := by exact_mod_cast hbh
  have hM2nn : (0:ℚ) ≤ max 0 (yB - yA + 1) := le_max_left 0 _
  have hxa1 : xB - xA + 1 ≤ (a.width : ℚ) + 1 := by
    have h1 : xB ≤ (a.left : ℚ) + a.width := min_le_left _ _
    have h2 : (a.left : ℚ) ≤ xA := le_max_left _ _
    linarith
  have hya1 : yB - yA + 1 ≤ (a.height : ℚ) + 1 := by
    have h1 : yB ≤ (a.top : ℚ) + a.height := min_le_left _ _
    have h2 : (a.top : ℚ) ≤ yA := le_max_left _ _
    linarith
  have hM1 : max 0 (xB - xA + 1) ≤ (a.width : ℚ) + 1 :=
    max_le (by linarith) hxa1
  have hM2 : max 0 (yB - yA + 1) ≤ (a.height : ℚ) + 1 :=
    max_le (by linarith) hya1
  have hprod : max 0 (xB - xA + 1) * max 0 (yB - yA + 1) ≤
      ((a.width : ℚ) + 1) * ((a.height : ℚ) + 1) :=
    mul_le_mul hM1 hM2 hM2nn (by linarith)
  have hA : (((a.left : ℚ) + a.width) - a.left + 1) * (((a.top : ℚ) + a.height) - a.top + 1) =
      ((a.width : ℚ) + 1) * ((a.height : ℚ) + 1) := by ring
  have hB : 0 <
      (((b.left : ℚ) + b.width) - b.left + 1) * (((b.top : ℚ) + b.height) - b.top + 1) := by
    have hBeq : (((b.left : ℚ) + b.width) - b.left + 1) * (((b.top : ℚ) + b.height) - b.top + 1) =
        ((b.width : ℚ) + 1) * ((b.height : ℚ) + 1) := by ring
    rw [hBeq]
    exact mul_pos (by linarith) (by linarith)
  rw [hA]
  linarith

lemma iou_candHigh_candLow : bbIntersectionOverUnion candHigh candLow = 1 := by
  norm_num [bbIntersectionOverUnion, candHigh, candLow]

lemma iou_candMid_candLow : bbIntersectionOverUnion candMid candLow = 9/13 := by
  norm_num [bbIntersectionOverUnion, candMid, candLow]

lemma iou_candBetween_candLow : bbIntersectionOverUnion candBetween candLow = 5/6 := by
  norm_num [bbIntersectionOverUnion, candBetween, candLow]

lemma iou_candBetween_candMid : bbIntersectionOverUnion candBetween candMid = 5/6 := by
  norm_num [bbIntersectionOverUnion, candBetween, candMid]

lemma iou_candBetween_self : bbIntersectionOverUnion candBetween candBetween = 1 := by
  norm_num [bbIntersectionOverUnion, candBetween]

lemma fuse_pair_example : fuse [candLow, candHigh] = [candHigh] := by
  have h0 : fuseStep [] candLow = [candLow] := by simp [fuseStep]
  have h1 : fuseStep [candLow] candHigh = [candHigh] := by
    rw [fuseStep_overlap_spec [candLow] candHigh
      ⟨candLow, List.mem_singleton.mpr rfl, by rw [iou_candHigh_candLow]; norm_num⟩]
    simp only [List.map_cons, List.map_nil]
    rw [if_pos ⟨by rw [iou_candHigh_candLow]; norm_num, by norm_num [candLow, candHigh]⟩]
  simp only [fuse, List.foldl_cons, List.foldl_nil, h0, h1]

lemma fuse_low_mid : fuse [candLow, candMid] = [candLow, candMid] := by
  have h0 : fuseStep [] candLow = [candLow] := by simp [fuseStep]
  have h1 : fuseStep [candLow] candMid = [candLow, candMid] := by
    rw [fuseStep_no_overlap [candLow] candMid ?_]
    · rfl
    · intro o ho
      have : o = candLow := by simpa using ho
      subst this
      rw [iou_candMid_candLow]
      norm_num
  simp only [fuse, List.foldl_cons, List.foldl_nil, h0, h1]

lemma fuse_triple : fuse [candLow, candMid, candBetween] = [candBetween, candBetween] := by
  have h0 : fuseStep [] candLow = [candLow] := by simp [fuseStep]
  have h1 : fuseStep [candLow] candMid = [candLow, candMid] := by
    rw [fuseStep_no_overlap [candLow] candMid ?_]
    · rfl
    · intro o ho
      have : o = candLow := by simpa using ho
      subst this
      rw [iou_candMid_candLow]
      norm_num
  have h2 : fuseStep [candLow, candMid] candBetween = [candBetween, candBetween] := by
    rw [fuseStep_overlap_spec [candLow, candMid] candBetween
      ⟨candLow, by simp, by rw [iou_candBetween_candLow]; norm_num⟩]
    simp only [List.map_cons, List.map_nil]
    rw [if_pos ⟨by rw [iou_candBetween_candLow]; norm_num, by norm_num [candLow, candBetween]⟩,
      if_pos ⟨by rw [iou_candBetween_candMid]; norm_num, by norm_num [candMid, candBetween]⟩]
  simp only [fuse, List.foldl_cons, List.foldl_nil, h0, h1, h2]

lemma fuse_between_twice : fuse [candBetween, candBetween] = [candBetween] := by
  have h0 : fuseStep [] candBetween = [candBetween] := by simp [fuseStep]
  have h1 : fuseStep [candBetween] candBetween = [candBetween] := by
    rw [fuseStep_overlap_spec [candBetween] candBetween
      ⟨candBetween, List.mem_singleton.mpr rfl, by rw [iou_candBetween_self]; norm_num⟩]
    simp only [List.map_cons, List.map_nil]
    rw [if_neg fun hc => absurd hc.2 (by norm_num [candBetween])]
  simp only [fuse, List.foldl_cons, List.foldl_nil, h0, h1]

lemma imageIterContinues (it : IterObs) (h1 : it.classIdOk = true)
    (h2 : it.insertOk = true) :
    loopBody IMAGE RunEnv.prod it = LoopOutcome.nextIteration := by
  simp only [loopBody]
  rw [if_neg (by decide : ¬ (IMAGE = STREAM ∨ IMAGE = VIDEO))]
  simp only [loopBodyDetect]
  by_cases hd : it.detections.isEmpty
  · rw [if_pos hd]
  · rw [if_neg hd, if_neg (by rw [h1]; decide), if_neg (by rw [h2]; decide)]

lemma imageRunForever : ∀ its : List IterObs,
    (∀ it ∈ its, it.classIdOk = true ∧ it.insertOk = true) →
    runIterations IMAGE RunEnv.prod its = none := by
  intro its
  induction its with
  | nil => intro _; rfl
  | cons it rest ih =>
    intro h
    obtain ⟨h1, h2⟩ := h it (List.mem_cons_self it rest)
    simp only [runIterations, imageIterContinues it h1 h2]
    exact ih fun it2 hm => h it2 (List.mem_cons_of_mem it hm)

/-- Claim C1: the fusion pass of `performDetection` processes
threshold-passing candidates in arrival order; a candidate overlapping
some accumulated entry above 0.7 is never appended as a separate entry and
overwrites exactly those overlapping entries whose confidence it strictly
exceeds, while a candidate overlapping no entry above 0.7 is appended as a
new object; in particular two candidates with mutual overlap above 0.7 and
confidences 0.8 then 0.95 fuse to the single object with confidence
0.95. -/
theorem fuse_arrival_order_spec :
    (∀ acc c, (∃ o ∈ acc, 7/10 < bbIntersectionOverUnion c o) →
      fuseStep acc c = acc.map fun o =>
        if 7/10 < bbIntersectionOverUnion c o ∧ o.confidence < c.confidence then c else o)
    ∧ (∀ acc c, (∀ o ∈ acc, ¬ 7/10 < bbIntersectionOverUnion c o) →
      fuseStep acc c = acc ++ [c])
    ∧ 7/10 < bbIntersectionOverUnion candHigh candLow
    ∧ candLow.confidence = 4/5 ∧ candHigh.confidence = 19/20
    ∧ fuse [candLow, candHigh] = [candHigh] := by
  refine ⟨fuseStep_overlap_spec, fuseStep_no_overlap, ?_, rfl, rfl, fuse_pair_example⟩
  rw [iou_candHigh_candLow]
  norm_num

/-- Witness for C1: both branches of the fusion step evaluated at
concrete candidates. -/
theorem fuse_arrival_order_spec_witness :
    fuseStep [candLow] candHigh =
      [candLow].map (fun o =>
        if 7/10 < bbIntersectionOverUnion candHigh o ∧ o.confidence < candHigh.confidence
        then candHigh else o)
    ∧ fuseStep [candLow] candMid = [candLow] ++ [candMid] :=
  ⟨fuse_arrival_order_spec.1 [candLow] candHigh
      ⟨candLow, List.mem_singleton.mpr rfl, by rw [iou_candHigh_candLow]; norm_num⟩,
   fuse_arrival_order_spec.2.1 [candLow] candMid
      (fun o ho => by
        have hol : o = candLow := by simpa using ho
        subst hol
        rw [iou_candMid_candLow]
        norm_num)⟩

/-- Claim C2 counterexample: with no previous alert and the unrecognized
unit code "x", `hasBeenAlerted` allows the notification and records a new
alert, so an unrecognized unit code does not always yield suppress. -/
theorem throttle_unknown_unit_counterexample :
    throttleDecision none 15 "x" 1000 = (false, some 1000)
    ∧ (false ≠ true) := ⟨rfl, by decide⟩

/-- Claim C2 (amended): the throttle decision of `hasBeenAlerted` allows
and records when no previous alert exists (whatever the unit code);
with a previous alert and unit m/h/d it suppresses without recording
exactly when the previous alert is after the cutoff (now minus the
magnitude in that unit) and otherwise allows and records; with a previous
alert and an unrecognized unit it suppresses without recording. -/
theorem hasBeenAlerted_throttle_cases (len last now : Int) (unit : String) :
    throttleDecision none len unit now = (false, some now)
    ∧ (unit = "m" →
        (now - 60 * len < last →
          throttleDecision (some last) len unit now = (true, none))
        ∧ (last ≤ now - 60 * len →
          throttleDecision (some last) len unit now = (false, some now)))
    ∧ (unit = "h" →
        (now - 3600 * len < last →
          throttleDecision (some last) len unit now = (true, none))
        ∧ (last ≤ now - 3600 * len →
          throttleDecision (some last) len unit now = (false, some now)))
    ∧ (unit = "d" →
        (now - 86400 * len < last →
          throttleDecision (some last) len unit now = (true, none))
        ∧ (last ≤ now - 86400 * len →
          throttleDecision (some last) len unit now = (false, some now)))
    ∧ (unit ≠ "m" → unit ≠ "h" → unit ≠ "d" →
        throttleDecision (some last) len unit now = (true, none)) := by
  refine ⟨rfl, ?_, ?_, ?_, ?_⟩
  · rintro rfl
    constructor
    · intro h
      simp only [throttleDecision, if_true]
      rw [if_pos h]
    · intro h
      simp only [throttleDecision, if_true]
      rw [if_neg (not_lt.mpr h)]
  · rintro rfl
    constructor
    · intro h
      simp only [throttleDecision, if_true]
      rw [if_neg (by decide), if_pos h]
    · intro h
      simp only [throttleDecision, if_true]
      rw [if_neg (by decide), if_neg (not_lt.mpr h)]
  · rintro rfl
    constructor
    · intro h
      simp only [throttleDecision, if_true]
      rw [if_neg (by decide), if_neg (by decide), if_pos h]
    · intro h
      simp only [throttleDecision, if_true]
      rw [if_neg (by decide), if_neg (by decide), if_neg (not_lt.mpr h)]
  · intro h1 h2 h3
    simp only [throttleDecision]
    rw [if_neg h1, if_neg h2, if_neg h3]

/-- Witness for C2: the own examples of the spec — "15m" with no prior alert
allows and records; an immediate second call at the same time suppresses;
"1d" with an alert 25 hours old allows again. -/
theorem hasBeenAlerted_throttle_cases_witness :
    throttleDecision none 15 "m" 1000 = (false, some 1000)
    ∧ throttleDecision (some 1000) 15 "m" 1000 = (true, none)
    ∧ throttleDecision (some 910000) 1 "d" 1000000 = (false, some 1000000) :=
  ⟨(hasBeenAlerted_throttle_cases 15 0 1000 "m").1,
   ((hasBeenAlerted_throttle_cases 15 1000 1000 "m").2.1 rfl).1 (by norm_num),
   ((hasBeenAlerted_throttle_cases 1 910000 1000000 "d").2.2.2.1 rfl).2 (by norm_num)⟩

/-- Claim C3 counterexample: on the all-negative score vector `[-1]` the
scan returns `(0, 0)`, and the returned confidence 0 is not an element of
the vector, hence not its maximum (which is -1). -/
theorem classify_negative_counterexample :
    getClassIDAndConfidence [(-1 : ℚ)] = (0, 0)
    ∧ (getClassIDAndConfidence [(-1 : ℚ)]).2 ∉ [(-1 : ℚ)] := by
  have h : getClassIDAndConfidence [(-1 : ℚ)] = (0, 0) := by
    simp only [getClassIDAndConfidence, getClassGo]
    rw [if_neg (by norm_num)]
  refine ⟨h, ?_⟩
  rw [h]
  norm_num

/-- Claim C3 (amended): `getClassIDAndConfidence` returns as confidence
the maximum of 0 and all vector elements (the fold of `max` from the
initial running maximum 0); when that value is positive the returned index
is the first index attaining it (all earlier elements are strictly
smaller); when no element is positive the result is `(0, 0)`, and the
empty sequence yields `(0, 0)`. -/
theorem getClassIDAndConfidence_spec (x : List ℚ) :
    (getClassIDAndConfidence x).2 = x.foldl max 0
    ∧ (0 < (getClassIDAndConfidence x).2 →
        ∃ j, ∃ hj : j < x.length,
          (getClassIDAndConfidence x).1 = j ∧
          x.get ⟨j, hj⟩ = (getClassIDAndConfidence x).2 ∧
          ∀ k, ∀ hk : k < j,
            x.get ⟨k, Nat.lt_trans hk hj⟩ < (getClassIDAndConfidence x).2)
    ∧ ((getClassIDAndConfidence x).2 ≤ 0 → getClassIDAndConfidence x = (0, 0))
    ∧ getClassIDAndConfidence [] = (0, 0) := by
  refine ⟨getClassGo_snd x 0 0 0, ?_, ?_, rfl⟩
  · intro h
    have h2 : (0 : ℚ) < x.foldl max 0 := by
      rw [← getClassGo_snd x 0 0 0]
      exact h
    obtain ⟨j, hj, hfst, hget, hpre⟩ := getClassGo_improve x 0 0 0 h2
    exact ⟨j, hj, by simpa using hfst, hget, hpre⟩
  · intro h
    have h0 : (0 : ℚ) ≤ x.foldl max 0 := le_foldl_max x 0
    have hsnd := getClassGo_snd x 0 0 0
    have heq : x.foldl max 0 = 0 := le_antisymm (by rw [← hsnd]; exact h) h0
    exact getClassGo_stay x 0 0 0 heq

/-- Witness for C3: the amended characterization evaluated on a vector
with no positive element. -/
theorem getClassIDAndConfidence_spec_witness :
    (getClassIDAndConfidence [(-2 : ℚ)]).2 = [(-2 : ℚ)].foldl max 0
    ∧ getClassIDAndConfidence [(-2 : ℚ)] = (0, 0) :=
  ⟨(getClassIDAndConfidence_spec [(-2 : ℚ)]).1,
   (getClassIDAndConfidence_spec [(-2 : ℚ)]).2.2.1 (by
     have h : getClassIDAndConfidence [(-2 : ℚ)] = (0, 0) := by
       simp only [getClassIDAndConfidence, getClassGo]
       rw [if_neg (by norm_num)]
     rw [h])⟩

/-- Claim C4 counterexample: fusing the clustered candidates `candLow`,
`candMid`, `candBetween` (pairwise overlaps 99/143, 5/6, 5/6) leaves the
duplicate list `[candBetween, candBetween]`, which a second fusion pass
collapses to `[candBetween]`, so `fuse` is not idempotent on its own
output. -/
theorem fuse_not_idempotent_counterexample :
    fuse (fuse [candLow, candMid, candBetween]) ≠ fuse [candLow, candMid, candBetween] := by
  rw [fuse_triple, fuse_between_twice]
  simp

/-- Claim C4 (amended): `fuse` is idempotent on its own output whenever
that output contains no later entry overlapping an earlier one above 0.7;
in general a high-confidence candidate can overwrite several accumulated
entries at once, leaving duplicates that a second pass merges. -/
theorem fuse_idempotent_amended (cands : List detectedObject)
    (h : List.Pairwise (fun o c => ¬ 7/10 < bbIntersectionOverUnion c o) (fuse cands)) :
    fuse (fuse cands) = fuse cands :=
  fuse_pairwise_id (fuse cands) h

/-- Witness for C4: idempotence on the two-candidate output whose entries
overlap only below threshold. -/
theorem fuse_idempotent_amended_witness :
    fuse (fuse [candLow, candMid]) = fuse [candLow, candMid] :=
  fuse_idempotent_amended [candLow, candMid] (by
    rw [fuse_low_mid]
    refine List.Pairwise.cons ?_ (List.pairwise_singleton _ _)
    intro o ho
    have hom : o = candMid := by simpa using ho
    subst hom
    rw [iou_candMid_candLow]
    norm_num)

/-- Claim C5 counterexample: the zero-width, zero-height `pointBox` is a
degenerate (zero-area) box, yet its self overlap ratio is 1 (the
inclusive `+1` convention gives it area 1), not 0. -/
theorem degenerate_box_counterexample :
    pointBox.width = 0 ∧ pointBox.height = 0
    ∧ bbIntersectionOverUnion pointBox pointBox = 1
    ∧ (1 : ℚ) ≠ 0 := by
  refine ⟨rfl, rfl, ?_, by norm_num⟩
  norm_num [bbIntersectionOverUnion, pointBox]

/-- Claim C5 (amended): `bbIntersectionOverUnion` is total and never
negative for all integer boxes; for boxes with non-negative width and
height the denominator is strictly positive, so no division by zero
arises there; but a zero-width/height box has inclusive area 1 and its
self-ratio is 1 rather than 0. -/
theorem bbIntersectionOverUnion_safety :
    (∀ a b, bbIntersectionOverUnion a b = iouInter a b / iouDenom a b)
    ∧ (∀ a b, 0 ≤ bbIntersectionOverUnion a b)
    ∧ (∀ a b : detectedObject, 0 ≤ a.width → 0 ≤ a.height → 0 ≤ b.width → 0 ≤ b.height →
        0 < iouDenom a b ∧ iouDenom a b ≠ 0)
    ∧ bbIntersectionOverUnion pointBox pointBox = 1 := by
  refine ⟨fun a b => bbIOU_eq_div a b, bbIOU_nonneg, ?_, ?_⟩
  · intro a b h1 h2 h3 h4
    have hpos := iouDenom_pos_of_nonneg_dims a b h1 h2 h3 h4
    exact ⟨hpos, (ne_of_gt hpos)⟩
  · norm_num [bbIntersectionOverUnion, pointBox]

/-- Witness for C5: denominator positivity evaluated at two concrete
non-degenerate boxes. -/
theorem bbIntersectionOverUnion_safety_witness :
    0 < iouDenom candLow candMid ∧ iouDenom candLow candMid ≠ 0 :=
  bbIntersectionOverUnion_safety.2.2.1 candLow candMid (by decide) (by decide)
    (by decide) (by decide)

/-- Claim C6: contrary to the specification, the capture loop of
`detectFromCapture` has no Image-specific termination: in production mode
with succeeding database calls every iteration of an Image-source loop
ends in `nextIteration` (detection re-runs on the cached frame), so the
pipeline never reaches a terminated state after one iteration — it never
terminates at all. -/
theorem image_source_loop_never_terminates :
    (∀ it : IterObs, it.classIdOk = true → it.insertOk = true →
      loopBody IMAGE RunEnv.prod it = LoopOutcome.nextIteration)
    ∧ ∀ its : List IterObs, (∀ it ∈ its, it.classIdOk = true ∧ it.insertOk = true) →
        runIterations IMAGE RunEnv.prod its = none :=
  ⟨imageIterContinues, imageRunForever⟩

/-- Witness for C6: an Image-source production loop is still running
after two frames of iteration observations. -/
theorem image_source_loop_never_terminates_witness :
    runIterations IMAGE RunEnv.prod [okIter, okIter] = none :=
  image_source_loop_never_terminates.2 [okIter, okIter] (by decide)

/-- Claim C7: contrary to the specification, an empty frame read
mid-stream is not recovered: the loop body hits `log.Fatal` (process
exit), in production and test mode alike, for Video and Stream sources
alike; the `continue` after it is dead code. -/
theorem empty_frame_read_is_fatal :
    loopBody VIDEO RunEnv.prod emptyFrameIter = LoopOutcome.fatalEmptyFrame
    ∧ loopBody STREAM RunEnv.prod emptyFrameIter = LoopOutcome.fatalEmptyFrame
    ∧ loopBody VIDEO RunEnv.test emptyFrameIter = LoopOutcome.fatalEmptyFrame
    ∧ runIterations VIDEO RunEnv.prod [emptyFrameIter] = some LoopOutcome.fatalEmptyFrame
    ∧ LoopOutcome.fatalEmptyFrame ≠ LoopOutcome.nextIteration := by
  refine ⟨rfl, rfl, rfl, rfl, by decide⟩

/-- Claim C8: contrary to the specification, the throttle decision is not
keyed by the (observer, stream) pair: `dbOne` and `dbTwo` agree on every
table and on the alert history of the stream-A subscription, differing
only in the alert history of the same observer on stream B, yet the decision
for notifying the observer about stream A flips from allow to suppress,
because `hasBeenAlerted` selects the subscription by observer email
alone. -/
theorem hasBeenAlerted_cross_stream_dependence :
    dbOne.observers = dbTwo.observers
    ∧ dbOne.streams = dbTwo.streams
    ∧ dbOne.subscriptions = dbTwo.subscriptions
    ∧ dbOne.alerts.filter (fun al => al.subscriptionId == subToA.id) =
        dbTwo.alerts.filter (fun al => al.subscriptionId == subToA.id)
    ∧ notifyObserverEmails dbOne "rtsp://a" = ["observer@mail"]
    ∧ notifyObserverEmails dbTwo "rtsp://a" = ["observer@mail"]
    ∧ (hasBeenAlerted dbOne "observer@mail" 1000).map Prod.fst = some false
    ∧ (hasBeenAlerted dbTwo "observer@mail" 1000).map Prod.fst = some true
    ∧ (notifyObservers dbOne "rtsp://a" 1000).map Prod.fst = some ["observer@mail"]
    ∧ (notifyObservers dbTwo "rtsp://a" 1000).map Prod.fst = some [] :=
  ⟨rfl, rfl, rfl, rfl, rfl, rfl, rfl, rfl, rfl, rfl⟩

/-- Claim C9 counterexample: a connection attempt that fails (is refused)
within the bound leaves the caller in the same timeout outcome as an
attempt that hangs past the bound — the failure is not signalled
distinctly to the caller. -/
theorem stream_connect_fail_counterexample :
    (streamConnect ConnectAttempt.failsInTime).caller =
      (streamConnect ConnectAttempt.hangs).caller
    ∧ (streamConnect ConnectAttempt.failsInTime).caller ≠ ConnectOutcome.connected
    ∧ (streamConnect ConnectAttempt.failsInTime).goroutineLoggedFailure = true := by
  decide

/-- Claim C9 (amended): the connection phase resolves to exactly one of
{connected, timed-out} for the caller: connected exactly on an attempt
that succeeds within the bound, timed-out otherwise; a refused attempt is
logged only inside the connect goroutine, the caller observes it as the
timeout outcome, and in that case the wait group is decremented twice. -/
theorem streamConnect_spec :
    ∀ a, ((streamConnect a).caller = ConnectOutcome.connected ↔
        a = ConnectAttempt.succeedsInTime)
    ∧ ((streamConnect a).caller = ConnectOutcome.timedOut ↔
        a ≠ ConnectAttempt.succeedsInTime)
    ∧ ((streamConnect a).goroutineLoggedFailure = true ↔ a = ConnectAttempt.failsInTime)
    ∧ ((streamConnect a).wgDoneCount = 2 ↔ a = ConnectAttempt.failsInTime) := by
  intro a
  cases a <;> decide

/-- Witness for C9: the timeout outcome observed on a hanging attempt. -/
theorem streamConnect_spec_witness :
    (streamConnect ConnectAttempt.hangs).caller = ConnectOutcome.timedOut :=
  (streamConnect_spec ConnectAttempt.hangs).2.1.mpr (by decide)

/-- Claim C10: `getDeviceType` classifies an address as IMAGE exactly when
it ends in ".jpg" or ".png", otherwise VIDEO exactly when it ends in
".mp4" or equals "0", otherwise STREAM exactly when it starts with "rtsp",
and -1 otherwise; `main` launches a pipeline for a device exactly when the
source type is not negative, with that source type. -/
theorem getDeviceType_spec (s : String) :
    (getDeviceType s = IMAGE ↔ (".jpg".data <:+ s.data ∨ ".png".data <:+ s.data))
    ∧ (getDeviceType s = VIDEO ↔
        (¬ (".jpg".data <:+ s.data ∨ ".png".data <:+ s.data) ∧
          (".mp4".data <:+ s.data ∨ s = "0")))
    ∧ (getDeviceType s = STREAM ↔
        (¬ (".jpg".data <:+ s.data ∨ ".png".data <:+ s.data) ∧
          ¬ (".mp4".data <:+ s.data ∨ s = "0") ∧ "rtsp".data <+: s.data))
    ∧ (getDeviceType s = -1 ↔
        (¬ (".jpg".data <:+ s.data ∨ ".png".data <:+ s.data) ∧
          ¬ (".mp4".data <:+ s.data ∨ s = "0") ∧ ¬ "rtsp".data <+: s.data))
    ∧ (mainDeviceDispatch s = none ↔ getDeviceType s = -1)
    ∧ (∀ t, mainDeviceDispatch s = some t → t = getDeviceType s) := by
  have hj : (strHasSuffix s ".jpg" || strHasSuffix s ".png") = true ↔
      (".jpg".data <:+ s.data ∨ ".png".data <:+ s.data) := by
    simp [strHasSuffix, List.isSuffixOf_iff_suffix]
  have hm : (strHasSuffix s ".mp4" || s.data == "0".data) = true ↔
      (".mp4".data <:+ s.data ∨ s = "0") := by
    simp [strHasSuffix, List.isSuffixOf_iff_suffix, String.ext_iff]
  have hr : (strHasPre s "rtsp") = true ↔ "rtsp".data <+: s.data := by
    simp [strHasPre, List.isPrefixOf_iff_prefix]
  simp only [getDeviceType, mainDeviceDispatch]
  by_cases h1 : (".jpg".data <:+ s.data ∨ ".png".data <:+ s.data)
  · rw [if_pos (hj.mpr h1)]
    simp [IMAGE, VIDEO, STREAM, h1]
  · rw [if_neg (fun hb => h1 (hj.mp hb))]
    by_cases h2 : (".mp4".data <:+ s.data ∨ s = "0")
    · rw [if_pos (hm.mpr h2)]
      simp [IMAGE, VIDEO, STREAM, h1, h2]
    · rw [if_neg (fun hb => h2 (hm.mp hb))]
      by_cases h3 : "rtsp".data <+: s.data
      · rw [if_pos (hr.mpr h3)]
        simp [IMAGE, VIDEO, STREAM, h1, h2, h3]
      · rw [if_neg (fun hb => h3 (hr.mp hb))]
        simp [IMAGE, VIDEO, STREAM, h1, h2, h3]

/-- Witness for C10: the launch conjunct applied to a concrete rtsp
address. -/
theorem getDeviceType_spec_witness : (2 : Int) = getDeviceType "rtsp://cam" :=
  (getDeviceType_spec "rtsp://cam").2.2.2.2.2 2 (by rfl)
